import Mathlib

/-
  Verification of the OpenSM LID Manager (osm_lid_mgr).

  This file gives a shallow embedding of the LID manager of the repository:
  the persistent guid2lid store, the used_lids and port_lid_tbl pointer
  vectors, the database validator, the sweep initializer, the per port LID
  resolver, the free range search, and the two orchestrator entry points.
  Machine integers are modelled as Nat with explicit truncation where the C
  code truncates. Pointer vectors are lists of optional cells: the C
  function cl_ptr_vector_set grows the vector as needed, cl_ptr_vector_get
  reads a cell, and cl_ptr_vector_at reports an out of range access.
-/

namespace OsmLidMgr

/-- Pointer vector: a list of cells, each either empty (NULL) or holding a
value, mirroring cl_ptr_vector_t. -/
abbrev PtrVec (α : Type) := List (Option α)

/-- Read a cell of a pointer vector; out of range reads give NULL, which is
how the code always treats them after its explicit size guards. -/
def pvGet {α : Type} (v : PtrVec α) (i : Nat) : Option α :=
  v.getD i none

/-- Write a cell of a pointer vector, growing the vector with NULL cells
when the index is past the end, as cl_ptr_vector_set does. -/
def pvSet {α : Type} (v : PtrVec α) (i : Nat) (x : Option α) : PtrVec α :=
  (if i < v.length then v else v ++ List.replicate (i + 1 - v.length) none).set i x

/-- Write the cells lo, lo+1, ..., lo+cnt-1 of a pointer vector to x, in
ascending order, mirroring the ascending for loops of the C code. -/
def pvFill {α : Type} (v : PtrVec α) (lo : Nat) (cnt : Nat) (x : Option α) : PtrVec α :=
  match cnt with
  | 0 => v
  | n + 1 => pvFill (pvSet v lo x) (lo + 1) n x

/-- A lid is marked in used_lids when its cell holds a non NULL value. -/
def usedHasB (v : PtrVec Unit) (i : Nat) : Bool :=
  (pvGet v i).isSome

/-- Entry of the persistent guid2lid database domain: a guid mapped to an
inclusive lid range. -/
structure G2lEntry where
  guid : Nat
  minLid : Nat
  maxLid : Nat
deriving DecidableEq

/-- Lookup in the guid2lid store, mirroring osm_db_guid2lid_get. -/
def g2lGet (l : List G2lEntry) (g : Nat) : Option (Nat × Nat) :=
  (l.find? (fun e => e.guid == g)).map (fun e => (e.minLid, e.maxLid))

/-- Delete from the guid2lid store, mirroring osm_db_guid2lid_delete. -/
def g2lDelete (l : List G2lEntry) (g : Nat) : List G2lEntry :=
  l.filter (fun e => e.guid != g)

/-- Update or insert in the guid2lid store, mirroring osm_db_guid2lid_set. -/
def g2lSet (l : List G2lEntry) (g mn mx : Nat) : List G2lEntry :=
  if l.any (fun e => e.guid == g) then
    l.map (fun e => if e.guid == g then ⟨g, mn, mx⟩ else e)
  else l ++ [⟨g, mn, mx⟩]

/-- Discovered port, as seen through the accessor functions the manager
uses: its guid (host order), the base lid advertised in its PortInfo (host
order), the discovered lid range reported by osm_port_get_lid_range_ho,
and the two node predicates consulted by the manager. -/
structure Port where
  guid : Nat
  baseLid : Nat
  discMin : Nat
  discMax : Nat
  isSwitch : Bool
  sp0LmcCapable : Bool
deriving DecidableEq

/-- Subnet options consumed by the LID manager. -/
structure SubnOpt where
  lmc : Nat
  reassignLids : Bool
  honorGuid2lidFile : Bool
deriving DecidableEq

/-- The subnet facts the manager reads: options, flags, the maximal unicast
lid, the guid of the SM port, the discovered ports in guid order, and the
on disk guid2lid file (none when a restore would fail). -/
structure Subn where
  opt : SubnOpt
  firstTimeMasterSweep : Bool
  comingOutOfStandby : Bool
  maxUnicastLidHo : Nat
  smPortGuid : Nat
  ports : List Port
  diskGuid2lid : Option (List G2lEntry)
deriving DecidableEq

/-- Mutable state threaded through the manager: the in memory guid2lid
domain, the used_lids vector owned by the manager, the free range list,
and the port_lid_tbl vector owned by the subnet. -/
structure MgrState where
  guid2lid : List G2lEntry
  usedLids : PtrVec Unit
  freeRanges : List (Nat × Nat)
  portLidTbl : PtrVec Port
deriving DecidableEq

/-- Start of the unicast lid range, IB_LID_UCAST_START_HO. -/
def ucastStart : Nat := 1

/-- End of the unicast lid range, IB_LID_UCAST_END_HO. -/
def ucastEnd : Nat := 0xBFFF

/-- Translation of the static helper trim_lid of osm_lid_mgr.c. -/
def trim_lid (lid : Nat) : Nat :=
  if lid > ucastEnd || lid < ucastStart then 0 else lid

/-- The lmc mask as every function of the file computes it: the bitwise
complement of two to the lmc minus one, truncated to 16 bits, and 0xffff
when lmc is zero. -/
def lmcMask (lmc : Nat) : Nat :=
  if lmc != 0 then 0xFFFF ^^^ ((1 <<< lmc) - 1) else 0xFFFF

/-- Number of lids a port needs: one for a base (non enhanced) switch port
zero, two to the lmc (as the C code computes it in a uint8_t) otherwise. -/
def numLidsFor (lmc : Nat) (p : Port) : Nat :=
  if p.isSwitch && !p.sp0LmcCapable then 1 else (1 <<< lmc) % 256

/-- Per entry acceptance test of the validator, transcribed from the body
of validate_db in osm_lid_mgr.c: an illegal range, a misaligned multi lid
range, or a lid already marked in used_lids makes lids_ok false. -/
def entryLidsOk (lmcM maxU : Nat) (used : PtrVec Unit) (g mn mx : Nat) : Bool :=
  if mn > mx || mn == 0 || g == 0 || mx > maxU then false
  else if mn != mx && (mn &&& lmcM) != mn then false
  else !(List.range' mn (mx + 1 - mn)).any
      (fun lid => decide (used.length > lid) && (pvGet used lid).isSome)

/-- Translation of validate_db of osm_lid_mgr.c: walk the snapshot of
guids, look each one up in the live store, delete entries whose lids are
not ok, and mark the lids of the accepted entries in used_lids. -/
def validate_db (lmcM maxU : Nat) :
    List Nat → List G2lEntry → PtrVec Unit → List G2lEntry × PtrVec Unit
  | [], store, used => (store, used)
  | g :: rest, store, used =>
    match g2lGet store g with
    | none => validate_db lmcM maxU rest store used
    | some (mn, mx) =>
      if entryLidsOk lmcM maxU used g mn mx then
        validate_db lmcM maxU rest store (pvFill used mn (mx + 1 - mn) (some ()))
      else
        validate_db lmcM maxU rest (g2lDelete store g) used

/-- Modelled from the spec: the rejection condition of the validator as
the specification words it — reject when the guid is zero, the minimum is
zero, the range is inverted, the maximum is beyond the maximal unicast
lid, the multi lid range is misaligned under the lmc mask, or some lid of
the range is already marked used by an earlier processed valid entry. -/
def specRejects (lmcM maxU : Nat) (used : PtrVec Unit) (e : G2lEntry) : Bool :=
  e.guid == 0 || e.minLid == 0 || e.minLid > e.maxLid || e.maxLid > maxU ||
  (e.minLid != e.maxLid && (e.minLid &&& lmcM) != e.minLid) ||
  (List.range' e.minLid (e.maxLid + 1 - e.minLid)).any (fun lid => usedHasB used lid)

/-- Modelled from the spec: the validator walks the entries in order,
deletes an entry exactly when the rejection condition holds against the
marks accumulated so far, and otherwise marks every lid of the range. -/
def spec_validate (lmcM maxU : Nat) :
    List G2lEntry → List G2lEntry → PtrVec Unit → List G2lEntry × PtrVec Unit
  | [], store, used => (store, used)
  | e :: rest, store, used =>
    if specRejects lmcM maxU used e then
      spec_validate lmcM maxU rest (g2lDelete store e.guid) used
    else
      spec_validate lmcM maxU rest store (pvFill used e.minLid (e.maxLid + 1 - e.minLid) (some ()))

/-- Inner loop of is_range_not_persistent: scan cnt cells upward from lid;
a non NULL cell in range makes the range not free, while running past the
end of the vector makes all further cells count as free. -/
def rangeScan (used : PtrVec Unit) : Nat → Nat → Bool
  | _, 0 => true
  | i, n + 1 =>
    if i < used.length then
      if (pvGet used i).isSome then false else rangeScan used (i + 1) n
    else true

/-- Translation of is_range_not_persistent of osm_lid_mgr.c. The start
lid below which every range is refused is two to the lmc, computed in a
uint8_t exactly as the C code casts it. -/
def is_range_not_persistent (lmc : Nat) (used : PtrVec Unit) (lid numLids : Nat) : Bool :=
  let startLid := (1 <<< lmc) % 256
  if lid < startLid then false
  else rangeScan used lid numLids

/-- Translation of find_free_lid_range of osm_lid_mgr.c: walk the free
range list; align the candidate start upward when more than one lid is
required; take the first range that fits, shrinking or removing it. The
none result models the fatal out of lids error, where the C code logs
ERR 0307 and halts on CL_ASSERT. -/
def find_free_lid_range (lmc : Nat) :
    List (Nat × Nat) → Nat → Option ((Nat × Nat) × List (Nat × Nat))
  | [], _ => none
  | (mn, mx) :: rest, numLids =>
    let lmcNumLids := (1 <<< lmc) % 256
    let lmcM := lmcMask lmc
    let lid := if numLids > 1 && (mn &&& lmcM) != mn
               then (mn + lmcNumLids) &&& lmcM
               else mn
    if lid + numLids - 1 ≤ mx then
      if lid + numLids - 1 == mx then
        some ((lid, lid + numLids - 1), rest)
      else
        some ((lid, lid + numLids - 1), (lid + numLids, mx) :: rest)
    else
      (find_free_lid_range lmc rest numLids).map (fun pr => (pr.1, (mn, mx) :: pr.2))

/-- Modelled from the spec: the smallest step aligned lid at least lo,
found by searching the window lo .. lo + step for the first multiple of
step. -/
def alignUpSpec (step lo : Nat) : Nat :=
  lo + ((List.range (step + 1)).find? (fun d => (lo + d) % step == 0)).getD 0

/-- Modelled from the spec: the free range search walks the ranges in
order; the start is lo when one lid is needed and otherwise the smallest
lmc aligned lid at least lo; the first range fitting start + n - 1 up to
hi yields the result, and the range is shrunk to start + n .. hi, removed
when empty. -/
def spec_find_free (n step : Nat) :
    List (Nat × Nat) → Option ((Nat × Nat) × List (Nat × Nat))
  | [] => none
  | (lo, hi) :: rest =>
    let start := if n == 1 then lo else alignUpSpec step lo
    if start + n - 1 ≤ hi then
      some ((start, start + n - 1),
        if start + n ≤ hi then (start + n, hi) :: rest else rest)
    else
      (spec_find_free n step rest).map (fun pr => (pr.1, (lo, hi) :: pr.2))

/-- Inner loop of cleanup_discovered_port_lid_range: clear the cells of
the discovered range that still point at the given port, with the vector
size captured before the loop as the C code does. -/
def clearMatching (p : Port) (maxTbl : Nat) : PtrVec Port → Nat → Nat → PtrVec Port
  | tbl, _, 0 => tbl
  | tbl, lo, n + 1 =>
    let tbl1 := if decide (lo < maxTbl) && (pvGet tbl lo == some p) then pvSet tbl lo none else tbl
    clearMatching p maxTbl tbl1 (lo + 1) n

/-- Translation of cleanup_discovered_port_lid_range of osm_lid_mgr.c. -/
def cleanup_discovered_port_lid_range (tbl : PtrVec Port) (p : Port) : PtrVec Port :=
  let maxTbl := tbl.length
  let mn := trim_lid p.discMin
  let mx := trim_lid p.discMax
  clearMatching p maxTbl tbl mn (mx + 1 - mn)

/-- Commit performed at the NewLidSet label of get_port_lid followed by
the Exit label: update guid2lid, mark used_lids, and mark port_lid_tbl
over the assigned range. -/
def commitNew (st : MgrState) (p : Port) (outMin outMax : Nat) : MgrState :=
  { st with
    guid2lid := g2lSet st.guid2lid p.guid outMin outMax,
    usedLids := pvFill st.usedLids outMin (outMax + 1 - outMin) (some ()),
    portLidTbl := pvFill st.portLidTbl outMin (outMax + 1 - outMin) (some p) }

/-- Guard of the keep advertised step of get_port_lid: the port info
carries a lid, we are not on the first sweep of the reassign lids flow,
the lid is aligned (or a single lid is needed), and the range is free. -/
def stepBTaken (subn : Subn) (used : PtrVec Unit) (p : Port) (numLids lmcM : Nat) : Bool :=
  (p.baseLid != 0) &&
  !(subn.firstTimeMasterSweep && subn.opt.reassignLids) &&
  (numLids == 1 || (p.baseLid &&& lmcM) == p.baseLid) &&
  is_range_not_persistent subn.opt.lmc used p.baseLid numLids

/-- Translation of get_port_lid of osm_lid_mgr.c. The result carries the
assigned range, the lid changed flag, and the updated manager state; the
none result models the fatal out of lids halt inside the free range
search. -/
def get_port_lid (subn : Subn) (st : MgrState) (p : Port) :
    Option (Nat × Nat × Bool × MgrState) :=
  let lmcM := lmcMask subn.opt.lmc
  let numLids := numLidsFor subn.opt.lmc p
  match g2lGet st.guid2lid p.guid with
  | some (dbMin, _) =>
    let outMin := dbMin
    let outMax := dbMin + numLids - 1
    if dbMin == p.baseLid then
      some (outMin, outMax, false,
        { st with portLidTbl := pvFill st.portLidTbl outMin (outMax + 1 - outMin) (some p) })
    else
      let tbl := cleanup_discovered_port_lid_range st.portLidTbl p
      some (outMin, outMax, true,
        { st with portLidTbl := pvFill tbl outMin (outMax + 1 - outMin) (some p) })
  | none =>
    if stepBTaken subn st.usedLids p numLids lmcM then
      some (p.baseLid, p.baseLid + numLids - 1, false,
        commitNew st p p.baseLid (p.baseLid + numLids - 1))
    else
      let tbl := cleanup_discovered_port_lid_range st.portLidTbl p
      match find_free_lid_range subn.opt.lmc st.freeRanges numLids with
      | none => none
      | some ((outMin, outMax), ranges) =>
        some (outMin, outMax, true,
          commitNew { st with portLidTbl := tbl, freeRanges := ranges } p outMin outMax)

/-- Standby handling at the top of init_sweep: when coming out of
standby, clear the in memory guid2lid domain; when the guid2lid file is
not honored also zero every cell of used_lids, and otherwise reload the
domain from disk, ignoring a failed restore (which leaves the domain
cleared). -/
def standbyPrep (subn : Subn) (g2l : List G2lEntry) (used : PtrVec Unit) :
    List G2lEntry × PtrVec Unit :=
  if subn.comingOutOfStandby then
    if subn.opt.honorGuid2lidFile == false then
      ([], used.map (fun _ => none))
    else
      (subn.diskGuid2lid.getD [], used)
  else (g2l, used)

/-- First pass of init_sweep over the discovered ports: record each port
over its trimmed discovered range in port_lid_tbl, and drop a persistent
entry that is misaligned or too narrow for a port needing more than one
lid, clearing its used_lids cells. The width test is carried out in Int,
as the C code promotes the uint16 operands to int. -/
def firstPass (subn : Subn) (lmcM : Nat) :
    List Port → List G2lEntry → PtrVec Unit → PtrVec Port →
    List G2lEntry × PtrVec Unit × PtrVec Port
  | [], g2l, used, tbl => (g2l, used, tbl)
  | p :: rest, g2l, used, tbl =>
    let dmn := trim_lid p.discMin
    let dmx := trim_lid p.discMax
    let tbl1 := pvFill tbl dmn (dmx + 1 - dmn) (some p)
    match g2lGet g2l p.guid with
    | none => firstPass subn lmcM rest g2l used tbl1
    | some (dbMn, dbMx) =>
      let numLids := numLidsFor subn.opt.lmc p
      if numLids != 1 &&
         (((dbMn &&& lmcM) != dbMn) ||
          decide ((dbMx : Int) - (dbMn : Int) + 1 < (numLids : Int))) then
        firstPass subn lmcM rest (g2lDelete g2l p.guid)
          (pvFill used dbMn (dbMx + 1 - dbMn) none) tbl1
      else firstPass subn lmcM rest g2l used tbl1

/-- Classification of one lid in the second pass of init_sweep: not free
when the persistent table maps it; else free unless a discovered port
without persistent entry sits there with an aligned range none of whose
further lids is persistently mapped, in which case the scan may skip to
the end of that discovered range. Returns the freedom flag and the lid
the loop variable holds after the body. -/
def sweepClassify (subn : Subn) (lmcM : Nat) (g2l : List G2lEntry)
    (used : PtrVec Unit) (tbl : PtrVec Port) (maxPers maxDisc lid : Nat) :
    Bool × Nat :=
  if decide (lid ≤ maxPers) && (pvGet used lid).isSome then (false, lid)
  else
    match (if lid ≤ maxDisc then pvGet tbl lid else none) with
    | none => (true, lid)
    | some p =>
      match g2lGet g2l p.guid with
      | some _ => (true, lid)
      | none =>
        let lmcNumLids := (1 <<< subn.opt.lmc) % 256
        let discMin := p.discMin
        let dm := if !p.isSwitch || p.sp0LmcCapable
                  then ((discMin + lmcNumLids - 1) % 65536, lmcNumLids)
                  else (p.discMax, 1)
        let discMax := dm.1
        let numLids := dm.2
        if numLids != 1 && (discMin &&& lmcM) != discMin then (true, lid)
        else
          if (List.range' (discMin + 1) (discMax + 1 - (discMin + 1))).any
               (fun r => decide (r ≤ maxPers) && (pvGet used r).isSome) then
            (true, lid)
          else
            (false, if discMax > lid then discMax else lid)

/-- Second pass loop of init_sweep, with fuel bounding the number of
iterations (the C loop runs the lid from one to the maximal defined lid,
possibly skipping ahead, so maxDef + 1 fuel always suffices). Maintains
the currently open free range and the emitted list, and returns, with
them, the final value of the loop variable. -/
def sweepScan (subn : Subn) (lmcM : Nat) (g2l : List G2lEntry)
    (used : PtrVec Unit) (tbl : PtrVec Port) (maxPers maxDisc maxDef : Nat) :
    Nat → Nat → Option (Nat × Nat) → List (Nat × Nat) →
    List (Nat × Nat) × Option (Nat × Nat) × Nat
  | 0, lid, op, acc => (acc, op, lid)
  | fuel + 1, lid, op, acc =>
    if lid > maxDef then (acc, op, lid)
    else
      let c := sweepClassify subn lmcM g2l used tbl maxPers maxDisc lid
      if c.1 then
        let op1 := match op with
          | some r => some (r.1, c.2)
          | none => some (c.2, c.2)
        sweepScan subn lmcM g2l used tbl maxPers maxDisc maxDef fuel (c.2 + 1) op1 acc
      else
        match op with
        | some r =>
          sweepScan subn lmcM g2l used tbl maxPers maxDisc maxDef fuel (c.2 + 1) none (acc ++ [r])
        | none =>
          sweepScan subn lmcM g2l used tbl maxPers maxDisc maxDef fuel (c.2 + 1) none acc

/-- Translation of init_sweep of osm_lid_mgr.c: standby handling, clearing
of the free range list and of port_lid_tbl, the reassign lids shortcut,
the first pass over discovered ports, and the second pass building the
free range list, which is always closed by a final range reaching the
maximal unicast lid minus one. -/
def init_sweep (subn : Subn) (st : MgrState) : MgrState :=
  let lmcM := lmcMask subn.opt.lmc
  let pre := standbyPrep subn st.guid2lid st.usedLids
  let g2l0 := pre.1
  let used0 := pre.2
  let tbl0 : PtrVec Port := st.portLidTbl.map (fun _ => none)
  if subn.firstTimeMasterSweep && subn.opt.reassignLids then
    { guid2lid := g2l0, usedLids := used0,
      freeRanges := [(1, subn.maxUnicastLidHo - 1)], portLidTbl := tbl0 }
  else
    let fp := firstPass subn lmcM subn.ports g2l0 used0 tbl0
    let g2l1 := fp.1
    let used1 := fp.2.1
    let tbl1 := fp.2.2
    let maxDisc := tbl1.length - 1
    let maxPers := used1.length - 1
    let maxDef := max maxPers maxDisc
    let scan := sweepScan subn lmcM g2l1 used1 tbl1 maxPers maxDisc maxDef (maxDef + 1) 1 none []
    let lastMin := match scan.2.1 with
      | some r => r.1
      | none => scan.2.2
    { guid2lid := g2l1, usedLids := used1,
      freeRanges := scan.1 ++ [(lastMin, subn.maxUnicastLidHo - 1)],
      portLidTbl := tbl1 }

/-- Signals returned by the orchestrator operations. -/
inductive OsmSignal where
  | done
  | donePending
deriving DecidableEq

/-- Signal computation of process_sm: the signal starts as done pending
and is demoted to done when the SM port lookup failed or when no set
request was sent. -/
def osmSignalOf (lookupOk sendSetReqs : Bool) : OsmSignal :=
  let s := OsmSignal.donePending
  let s := if lookupOk == false then OsmSignal.done else s
  if sendSetReqs == false then OsmSignal.done else s

/-- Translation of process_sm of osm_lid_mgr.c together with the inlined
process_our_sm_node: run init_sweep, clear send_set_reqs, look the SM
port up by guid, resolve it and configure it. The configurator
set_physp_pi is abstracted by the decision oracle dec, which tells
whether configuring a port raises send_set_reqs and emits a PortInfo set
request; the emitted request list is returned alongside the signal. -/
def process_sm (subn : Subn) (dec : Port → Bool) (st : MgrState) :
    Option (OsmSignal × MgrState × List Port) :=
  let st1 := init_sweep subn st
  match subn.ports.find? (fun q => q.guid == subn.smPortGuid) with
  | none => some (osmSignalOf false false, st1, [])
  | some p =>
    match get_port_lid subn st1 p with
    | none => none
    | some (_, _, _, st2) =>
      let sendSet := dec p
      some (osmSignalOf true sendSet, st2, if sendSet then [p] else [])

/-- Loop of process_subnet over the discovered ports: skip the SM port,
resolve every other port, record whether any configuration raised
send_set_reqs. -/
def processSubnetGo (subn : Subn) (dec : Port → Bool) :
    List Port → MgrState → Bool → Option (OsmSignal × MgrState × Bool)
  | [], st, sends => some (if sends == false then OsmSignal.done else OsmSignal.donePending, st, sends)
  | p :: rest, st, sends =>
    if p.guid == subn.smPortGuid then processSubnetGo subn dec rest st sends
    else
      match get_port_lid subn st p with
      | none => none
      | some (_, _, _, st1) =>
        processSubnetGo subn dec rest st1 (if dec p then true else sends)

/-- Translation of process_subnet of osm_lid_mgr.c: resolve and configure
every discovered port except the SM port, then persist the guid2lid
store; the persisted map is the guid2lid component of the final state. -/
def process_subnet (subn : Subn) (dec : Port → Bool) (st : MgrState) :
    Option (OsmSignal × MgrState × Bool) :=
  processSubnetGo subn dec subn.ports st false

/-! Basic lemmas about pointer vectors. -/

theorem pvGet_eq_getElem {α : Type} (v : PtrVec α) (i : Nat) :
    pvGet v i = (v[i]?).getD none := by
  simp [pvGet]

theorem pvGet_of_ge {α : Type} {v : PtrVec α} {i : Nat} (h : v.length ≤ i) :
    pvGet v i = none := by
  simp [pvGet_eq_getElem, List.getElem?_eq_none h]

theorem length_pvSet {α : Type} (v : PtrVec α) (i : Nat) (x : Option α) :
    (pvSet v i x).length = max v.length (i + 1) := by
  unfold pvSet
  by_cases h : i < v.length
  · simp [h]; omega
  · simp [h]; omega

theorem pvGet_pvSet_self {α : Type} (v : PtrVec α) (i : Nat) (x : Option α) :
    pvGet (pvSet v i x) i = x := by
  unfold pvSet
  by_cases h : i < v.length
  · simp [h, pvGet_eq_getElem, List.getElem?_set_self h]
  · have hlen : i < (v ++ List.replicate (i + 1 - v.length) (none : Option α)).length := by
      simp; omega
    simp [h, pvGet_eq_getElem, List.getElem?_set_self hlen]

theorem pvGet_pvSet_ne {α : Type} (v : PtrVec α) {i j : Nat} (x : Option α)
    (h : j ≠ i) : pvGet (pvSet v i x) j = pvGet v j := by
  unfold pvSet
  by_cases hi : i < v.length
  · simp [hi, pvGet_eq_getElem, List.getElem?_set_ne (Ne.symm h)]
  · rw [pvGet_eq_getElem, pvGet_eq_getElem]
    rw [List.getElem?_set_ne (Ne.symm h)]
    by_cases hj : j < v.length
    · simp [hi, List.getElem?_append_left hj]
    · rw [if_neg hi]
      rw [List.getElem?_append_right (by omega)]
      rw [List.getElem?_eq_none (l := v) (by omega)]
      simp only [List.getElem?_replicate]
      split <;> rfl

theorem pvGet_pvFill_lt {α : Type} {v : PtrVec α} {lo cnt L : Nat} {x : Option α}
    (h : L < lo) : pvGet (pvFill v lo cnt x) L = pvGet v L := by
  induction cnt generalizing v lo with
  | zero => rfl
  | succ n ih =>
    rw [pvFill, ih (by omega), pvGet_pvSet_ne _ _ (by omega)]

theorem pvGet_pvFill_ge {α : Type} {v : PtrVec α} {lo cnt L : Nat} {x : Option α}
    (h : lo + cnt ≤ L) : pvGet (pvFill v lo cnt x) L = pvGet v L := by
  induction cnt generalizing v lo with
  | zero => rfl
  | succ n ih =>
    rw [pvFill, ih (by omega), pvGet_pvSet_ne _ _ (by omega)]

theorem pvGet_pvFill_in {α : Type} {v : PtrVec α} {lo cnt L : Nat} {x : Option α}
    (h1 : lo ≤ L) (h2 : L < lo + cnt) : pvGet (pvFill v lo cnt x) L = x := by
  induction cnt generalizing v lo with
  | zero => omega
  | succ n ih =>
    rw [pvFill]
    by_cases hL : L = lo
    · subst hL
      rw [pvGet_pvFill_lt (by omega), pvGet_pvSet_self]
    · exact ih (by omega) (by omega)

/-! Basic lemmas about the guid2lid store operations. -/

theorem find?_replace_self {g mn mx : Nat} (l : List G2lEntry)
    (h : l.any (fun e => e.guid == g) = true) :
    (l.map (fun e => if e.guid == g then (⟨g, mn, mx⟩ : G2lEntry) else e)).find?
      (fun e => e.guid == g) = some ⟨g, mn, mx⟩ := by
  induction l with
  | nil => simp at h
  | cons e t ih =>
    simp only [List.map_cons]
    by_cases he : (e.guid == g) = true
    · rw [if_pos he]
      rw [List.find?_cons_of_pos _ (by simp)]
    · rw [if_neg he]
      rw [List.find?_cons_of_neg _ (by simp only [he]; exact Bool.false_ne_true)]
      simp only [List.any_cons, he, Bool.false_or] at h
      exact ih h

theorem find?_replace_ne {g g2 mn mx : Nat} (l : List G2lEntry) (h : g2 ≠ g) :
    (l.map (fun e => if e.guid == g then (⟨g, mn, mx⟩ : G2lEntry) else e)).find?
      (fun e => e.guid == g2) = l.find? (fun e => e.guid == g2) := by
  induction l with
  | nil => rfl
  | cons e t ih =>
    simp only [List.map_cons]
    by_cases he : (e.guid == g) = true
    · have hg : e.guid = g := by simpa using he
      rw [if_pos he]
      rw [List.find?_cons_of_neg _ (by simp [G2lEntry.guid]; omega)]
      rw [List.find?_cons_of_neg _ (by simp [hg]; omega)]
      exact ih
    · rw [if_neg he]
      by_cases hp : (e.guid == g2) = true
      · rw [List.find?_cons_of_pos (p := fun (x : G2lEntry) => x.guid == g2) _ hp]
        rw [List.find?_cons_of_pos (p := fun (x : G2lEntry) => x.guid == g2) _ hp]
      · rw [List.find?_cons_of_neg _ (by simp only [hp]; exact Bool.false_ne_true)]
        rw [List.find?_cons_of_neg _ (by simp only [hp]; exact Bool.false_ne_true)]
        exact ih

theorem g2lGet_g2lSet_self (l : List G2lEntry) (g mn mx : Nat) :
    g2lGet (g2lSet l g mn mx) g = some (mn, mx) := by
  unfold g2lSet
  by_cases h : l.any (fun e => e.guid == g) = true
  · rw [if_pos h]
    unfold g2lGet
    rw [find?_replace_self l h]
    rfl
  · rw [if_neg h]
    unfold g2lGet
    rw [List.find?_append]
    have hnone : l.find? (fun e => e.guid == g) = none := by
      rw [List.find?_eq_none]
      intro x hx hp
      exact h (List.any_eq_true.mpr ⟨x, hx, by simpa using hp⟩)
    rw [hnone]
    rw [List.find?_cons_of_pos _ (by simp)]
    rfl

theorem g2lGet_g2lSet_ne (l : List G2lEntry) {g g2 : Nat} (mn mx : Nat)
    (h : g2 ≠ g) : g2lGet (g2lSet l g mn mx) g2 = g2lGet l g2 := by
  unfold g2lSet
  by_cases ha : l.any (fun e => e.guid == g) = true
  · rw [if_pos ha]
    unfold g2lGet
    rw [find?_replace_ne l h]
  · rw [if_neg ha]
    unfold g2lGet
    rw [List.find?_append]
    rw [List.find?_cons_of_neg _ (by simp [G2lEntry.guid]; omega)]
    simp

theorem g2lGet_g2lDelete_self (l : List G2lEntry) (g : Nat) :
    g2lGet (g2lDelete l g) g = none := by
  unfold g2lGet g2lDelete
  have hnone : (l.filter (fun e => e.guid != g)).find? (fun e => e.guid == g) = none := by
    rw [List.find?_eq_none]
    intro e he
    have hmem := List.of_mem_filter he
    simp only [bne_iff_ne, ne_eq] at hmem
    simp [hmem]
  rw [hnone]
  rfl

theorem g2lGet_g2lDelete_ne (l : List G2lEntry) {g g2 : Nat} (h : g2 ≠ g) :
    g2lGet (g2lDelete l g) g2 = g2lGet l g2 := by
  unfold g2lGet g2lDelete
  induction l with
  | nil => rfl
  | cons e t ih =>
    rw [List.filter_cons]
    by_cases hq : (e.guid != g) = true
    · rw [if_pos hq]
      by_cases hp : (e.guid == g2) = true
      · rw [List.find?_cons_of_pos (p := fun (x : G2lEntry) => x.guid == g2) _ hp]
        rw [List.find?_cons_of_pos (p := fun (x : G2lEntry) => x.guid == g2) _ hp]
      · rw [List.find?_cons_of_neg _ (by simp only [hp]; exact Bool.false_ne_true)]
        rw [List.find?_cons_of_neg _ (by simp only [hp]; exact Bool.false_ne_true)]
        exact ih
    · have hg : e.guid = g := by
        simpa using hq
      rw [if_neg hq]
      rw [List.find?_cons_of_neg _ (by simp [hg]; omega)]
      exact ih

/-! Lemmas about the cleanup of a discovered lid range and about marks. -/

theorem pvGet_pvSet_none_sub {α : Type} {t : PtrVec α} {i L : Nat} {q : α}
    (h : pvGet (pvSet t i none) L = some q) : pvGet t L = some q := by
  by_cases hL : L = i
  · subst hL
    rw [pvGet_pvSet_self] at h
    cases h
  · rwa [pvGet_pvSet_ne _ _ hL] at h

theorem clearMatching_sub {p : Port} {m : Nat} {cnt : Nat} :
    ∀ {tbl : PtrVec Port} {lo L : Nat} {q : Port},
    pvGet (clearMatching p m tbl lo cnt) L = some q → pvGet tbl L = some q := by
  induction cnt with
  | zero =>
    intro tbl lo L q h
    exact h
  | succ n ih =>
    intro tbl lo L q h
    rw [clearMatching] at h
    have h2 := ih h
    by_cases hc : (decide (lo < m) && (pvGet tbl lo == some p)) = true
    · rw [if_pos hc] at h2
      exact pvGet_pvSet_none_sub h2
    · rwa [if_neg hc] at h2

theorem cleanup_sub {tbl : PtrVec Port} {p : Port} {L : Nat} {q : Port}
    (h : pvGet (cleanup_discovered_port_lid_range tbl p) L = some q) :
    pvGet tbl L = some q := by
  unfold cleanup_discovered_port_lid_range at h
  exact clearMatching_sub h

theorem usedHasB_pvFill_in {u : PtrVec Unit} {lo cnt L : Nat}
    (h1 : lo ≤ L) (h2 : L < lo + cnt) :
    usedHasB (pvFill u lo cnt (some ())) L = true := by
  simp [usedHasB, pvGet_pvFill_in h1 h2]

theorem usedHasB_pvFill_mono {u : PtrVec Unit} {lo cnt L : Nat}
    (h : usedHasB u L = true) :
    usedHasB (pvFill u lo cnt (some ())) L = true := by
  by_cases h1 : lo ≤ L ∧ L < lo + cnt
  · exact usedHasB_pvFill_in h1.1 h1.2
  · unfold usedHasB at h ⊢
    rcases Nat.lt_or_ge L lo with h2 | h2
    · rwa [pvGet_pvFill_lt h2]
    · rw [pvGet_pvFill_ge (by omega)]
      exact h

/-! Helper lemmas about a fill of the cells a .. b of a pointer vector. -/

theorem fill_get_in {α : Type} {t : PtrVec α} {x : α} {a b L : Nat}
    (h1 : a ≤ L) (h2 : L ≤ b) :
    pvGet (pvFill t a (b + 1 - a) (some x)) L = some x :=
  pvGet_pvFill_in h1 (by omega)

theorem fill_get_cases {α : Type} {t : PtrVec α} {x : α} {a b L : Nat} {q : α}
    (hq : pvGet (pvFill t a (b + 1 - a) (some x)) L = some q) :
    (q = x ∧ a ≤ L ∧ L ≤ b) ∨ pvGet t L = some q := by
  by_cases hin : a ≤ L ∧ L ≤ b
  · rw [pvGet_pvFill_in hin.1 (by omega)] at hq
    exact Or.inl ⟨by injection hq.symm, hin.1, hin.2⟩
  · rcases Nat.lt_or_ge L a with h2 | h2
    · rw [pvGet_pvFill_lt h2] at hq
      exact Or.inr hq
    · rw [pvGet_pvFill_ge (by omega)] at hq
      exact Or.inr hq

theorem used_fill_in {u : PtrVec Unit} {a b L : Nat} (h1 : a ≤ L) (h2 : L ≤ b) :
    usedHasB (pvFill u a (b + 1 - a) (some ())) L = true :=
  usedHasB_pvFill_in h1 (by omega)

/-! Master lemma about the resolver get_port_lid, splitting on the
persistent hit case and the commit case. -/

theorem get_port_lid_cases {subn : Subn} {st : MgrState} {p : Port}
    {mn mx : Nat} {ch : Bool} {st1 : MgrState}
    (h : get_port_lid subn st p = some (mn, mx, ch, st1)) :
    (∀ L, mn ≤ L → L ≤ mx → pvGet st1.portLidTbl L = some p) ∧
    (∀ L q, pvGet st1.portLidTbl L = some q →
        (q = p ∧ mn ≤ L ∧ L ≤ mx) ∨ pvGet st.portLidTbl L = some q) ∧
    (∀ g, g ≠ p.guid → g2lGet st1.guid2lid g = g2lGet st.guid2lid g) ∧
    (match g2lGet st.guid2lid p.guid with
     | some r => st1.guid2lid = st.guid2lid ∧ st1.usedLids = st.usedLids ∧
                 mn = r.1 ∧ mx = r.1 + numLidsFor subn.opt.lmc p - 1
     | none => g2lGet st1.guid2lid p.guid = some (mn, mx) ∧
               (∀ L, mn ≤ L → L ≤ mx → usedHasB st1.usedLids L = true)) := by
  unfold get_port_lid at h
  cases hg : g2lGet st.guid2lid p.guid with
  | some r =>
    obtain ⟨dbMin, dbMax⟩ := r
    rw [hg] at h
    simp only at h
    by_cases hb : (dbMin == p.baseLid) = true
    · rw [if_pos hb] at h
      simp only [Option.some.injEq, Prod.mk.injEq] at h
      obtain ⟨h1, h2, h3, h4⟩ := h
      subst h1
      subst h2
      subst h4
      rw [hg]
      refine ⟨fun L hL1 hL2 => fill_get_in hL1 hL2,
              fun L q hq => fill_get_cases hq,
              fun g _ => rfl, rfl, rfl, rfl, rfl⟩
    · rw [if_neg hb] at h
      simp only [Option.some.injEq, Prod.mk.injEq] at h
      obtain ⟨h1, h2, h3, h4⟩ := h
      subst h1
      subst h2
      subst h4
      rw [hg]
      refine ⟨fun L hL1 hL2 => fill_get_in hL1 hL2,
              fun L q hq => (fill_get_cases hq).imp id (fun ho => cleanup_sub ho),
              fun g _ => rfl, rfl, rfl, rfl, rfl⟩
  | none =>
    rw [hg] at h
    simp only at h
    by_cases hsb : stepBTaken subn st.usedLids p (numLidsFor subn.opt.lmc p) (lmcMask subn.opt.lmc) = true
    · rw [if_pos hsb] at h
      simp only [Option.some.injEq, Prod.mk.injEq] at h
      obtain ⟨h1, h2, h3, h4⟩ := h
      subst h1
      subst h2
      subst h4
      refine ⟨fun L hL1 hL2 => fill_get_in hL1 hL2,
              fun L q hq => fill_get_cases hq,
              fun g hgne => g2lGet_g2lSet_ne _ _ _ hgne,
              g2lGet_g2lSet_self _ _ _ _,
              fun L hL1 hL2 => used_fill_in hL1 hL2⟩
    · rw [if_neg hsb] at h
      cases hf : find_free_lid_range subn.opt.lmc st.freeRanges (numLidsFor subn.opt.lmc p) with
      | none =>
        rw [hf] at h
        cases h
      | some pr =>
        obtain ⟨⟨fmn, fmx⟩, rr⟩ := pr
        rw [hf] at h
        simp only [Option.some.injEq, Prod.mk.injEq] at h
        obtain ⟨h1, h2, h3, h4⟩ := h
        subst h1
        subst h2
        subst h4
        refine ⟨fun L hL1 hL2 => fill_get_in hL1 hL2,
                fun L q hq => (fill_get_cases hq).imp id (fun ho => cleanup_sub ho),
                fun g hgne => g2lGet_g2lSet_ne _ _ _ hgne,
                g2lGet_g2lSet_self _ _ _ _,
                fun L hL1 hL2 => used_fill_in hL1 hL2⟩

/-! Helper lemma: when there is no persistent hit and the keep advertised
guard fails, the resolver allocates from the free range list. -/

theorem get_port_lid_step_c {subn : Subn} {st : MgrState} {p : Port}
    (hg : g2lGet st.guid2lid p.guid = none)
    (hsb : stepBTaken subn st.usedLids p (numLidsFor subn.opt.lmc p) (lmcMask subn.opt.lmc) = false)
    {mn mx : Nat} {ch : Bool} {st1 : MgrState}
    (h : get_port_lid subn st p = some (mn, mx, ch, st1)) :
    ch = true ∧
    find_free_lid_range subn.opt.lmc st.freeRanges (numLidsFor subn.opt.lmc p) =
      some ((mn, mx), st1.freeRanges) ∧
    (∀ i, usedHasB st.usedLids i = true → usedHasB st1.usedLids i = true) := by
  unfold get_port_lid at h
  rw [hg] at h
  simp only at h
  rw [if_neg (by simp [hsb])] at h
  cases hf : find_free_lid_range subn.opt.lmc st.freeRanges (numLidsFor subn.opt.lmc p) with
  | none =>
    rw [hf] at h
    cases h
  | some pr =>
    obtain ⟨⟨fmn, fmx⟩, rr⟩ := pr
    rw [hf] at h
    simp only [Option.some.injEq, Prod.mk.injEq] at h
    obtain ⟨h1, h2, h3, h4⟩ := h
    subst h1
    subst h2
    subst h4
    refine ⟨h3.symm, rfl, ?_⟩
    intro i hi
    simp only [commitNew]
    exact usedHasB_pvFill_mono hi

/-- Claim C1 (corrected). On the two commit paths of the resolver, keep
advertised and fresh allocation, which are exactly the paths taken when
the guid has no persistent entry, get_port_lid writes the assigned range
to the guid2lid store and marks both used_lids and port_lid_tbl over it;
on a persistent hit the store and used_lids are untouched and only
port_lid_tbl is marked over the returned range. -/
theorem c1_commit_paths {subn : Subn} {st : MgrState} {p : Port}
    {mn mx : Nat} {ch : Bool} {st1 : MgrState}
    (h : get_port_lid subn st p = some (mn, mx, ch, st1)) :
    (g2lGet st.guid2lid p.guid = none →
       g2lGet st1.guid2lid p.guid = some (mn, mx) ∧
       (∀ L, mn ≤ L → L ≤ mx →
          usedHasB st1.usedLids L = true ∧ pvGet st1.portLidTbl L = some p)) ∧
    (∀ emn emx, g2lGet st.guid2lid p.guid = some (emn, emx) →
       st1.guid2lid = st.guid2lid ∧ st1.usedLids = st.usedLids ∧ mn = emn ∧
       (∀ L, mn ≤ L → L ≤ mx → pvGet st1.portLidTbl L = some p)) := by
  obtain ⟨hin, _, _, hmatch⟩ := get_port_lid_cases h
  constructor
  · intro hg
    rw [hg] at hmatch
    exact ⟨hmatch.1, fun L h1 h2 => ⟨hmatch.2 L h1 h2, hin L h1 h2⟩⟩
  · intro emn emx hg
    rw [hg] at hmatch
    exact ⟨hmatch.1, hmatch.2.1, hmatch.2.2.1, fun L h1 h2 => hin L h1 h2⟩

/-- Port of the C1 scenario. -/
def c1Port : Port :=
  { guid := 7, baseLid := 10, discMin := 10, discMax := 10,
    isSwitch := false, sp0LmcCapable := false }

/-- Subnet of the C1 scenario: lmc two, so four lids per port. -/
def c1Subn : Subn :=
  { opt := { lmc := 2, reassignLids := false, honorGuid2lidFile := false },
    firstTimeMasterSweep := false, comingOutOfStandby := false,
    maxUnicastLidHo := 0xC000, smPortGuid := 1, ports := [c1Port],
    diskGuid2lid := none }

/-- State of the C1 scenario: the stored entry for the port is the narrow
range 10 .. 10 and used_lids is empty. -/
def c1St : MgrState :=
  { guid2lid := [⟨7, 10, 10⟩], usedLids := [], freeRanges := [(1, 0xBFFF)],
    portLidTbl := [] }

/-- Claim C1 counterexample: on a persistent hit (the stored minimum 10
matches the advertised base lid), the resolver returns the range 10 .. 13
but performs no guid2lid set and marks nothing in used_lids: the store
still holds the entry 10 .. 10, which disagrees with the returned range,
and used_lids stays empty, disagreeing with port_lid_tbl on 10 .. 13. -/
theorem c1_counterexample :
    get_port_lid c1Subn c1St c1Port = some (10, 13, false,
      { guid2lid := [⟨7, 10, 10⟩], usedLids := [], freeRanges := [(1, 0xBFFF)],
        portLidTbl := List.replicate 10 none ++ List.replicate 4 (some c1Port) }) ∧
    g2lGet [(⟨7, 10, 10⟩ : G2lEntry)] c1Port.guid ≠ some (10, 13) ∧
    usedHasB ([] : PtrVec Unit) 10 = false ∧
    pvGet (List.replicate 10 (none : Option Port) ++ List.replicate 4 (some c1Port)) 10 =
      some c1Port := by
  decide

/-- Witness port for C1: keep advertised path with lmc zero. -/
def c1wPort : Port :=
  { guid := 5, baseLid := 3, discMin := 3, discMax := 3,
    isSwitch := false, sp0LmcCapable := false }

/-- Witness subnet for C1. -/
def c1wSubn : Subn :=
  { opt := { lmc := 0, reassignLids := false, honorGuid2lidFile := false },
    firstTimeMasterSweep := false, comingOutOfStandby := false,
    maxUnicastLidHo := 0xC000, smPortGuid := 1, ports := [c1wPort],
    diskGuid2lid := none }

/-- Witness state for C1: empty store, empty used_lids. -/
def c1wSt : MgrState :=
  { guid2lid := [], usedLids := [], freeRanges := [(1, 10)], portLidTbl := [] }

/-- Witness for C1 at a concrete keep advertised input: the commit wrote
the store entry for the kept range 3 .. 3. -/
theorem c1_commit_paths_witness :
    g2lGet (commitNew c1wSt c1wPort 3 3).guid2lid c1wPort.guid = some (3, 3) :=
  ((c1_commit_paths
      (by decide : get_port_lid c1wSubn c1wSt c1wPort =
        some (3, 3, false, commitNew c1wSt c1wPort 3 3))).1 (by decide)).1

/-- Claim C3 (corrected). The resolver never clears used_lids before the
keep advertised check: whenever a port has no persistent entry and its
advertised range is blocked in used_lids, even solely by the marks left
for that same port, get_port_lid falls through to a fresh allocation from
the free range list with the changed flag raised, and every previous
used_lids mark, the blocking marks of the port itself included, survives
into the resulting state. -/
theorem c3_blocked_reallocates {subn : Subn} {st : MgrState} {p : Port}
    {mn mx : Nat} {ch : Bool} {st1 : MgrState}
    (hg : g2lGet st.guid2lid p.guid = none)
    (hblock : is_range_not_persistent subn.opt.lmc st.usedLids p.baseLid
        (numLidsFor subn.opt.lmc p) = false)
    (h : get_port_lid subn st p = some (mn, mx, ch, st1)) :
    ch = true ∧
    find_free_lid_range subn.opt.lmc st.freeRanges (numLidsFor subn.opt.lmc p) =
      some ((mn, mx), st1.freeRanges) ∧
    (∀ i, usedHasB st.usedLids i = true → usedHasB st1.usedLids i = true) :=
  get_port_lid_step_c hg (by simp [stepBTaken, hblock]) h

/-- Port of the C3 scenario. -/
def c3Port : Port :=
  { guid := 7, baseLid := 8, discMin := 8, discMax := 8,
    isSwitch := false, sp0LmcCapable := false }

/-- Subnet of the C3 scenario: lmc zero, one lid per port. -/
def c3Subn : Subn :=
  { opt := { lmc := 0, reassignLids := false, honorGuid2lidFile := false },
    firstTimeMasterSweep := false, comingOutOfStandby := false,
    maxUnicastLidHo := 0xC000, smPortGuid := 1, ports := [c3Port],
    diskGuid2lid := none }

/-- State of the C3 scenario: the port has no persistent entry, but lid 8,
its own advertised base, is still marked in used_lids from its previous
resolution, and port_lid_tbl still shows the port at lid 8. -/
def c3St : MgrState :=
  { guid2lid := [], usedLids := List.replicate 8 none ++ [some ()],
    freeRanges := [(1, 0xBFFE)],
    portLidTbl := List.replicate 8 none ++ [some c3Port] }

/-- Claim C3 counterexample: the advertised base lid 8 is blocked only by
the mark the port itself left in used_lids, yet the resolver does not
clear that mark first: it moves the port to lid 1 with the changed flag
raised, and the stale mark at lid 8 is still present afterwards. -/
theorem c3_counterexample :
    get_port_lid c3Subn c3St c3Port = some (1, 1, true,
      { guid2lid := [⟨7, 1, 1⟩],
        usedLids := [none, some ()] ++ List.replicate 6 none ++ [some ()],
        freeRanges := [(2, 0xBFFE)],
        portLidTbl := [none, some c3Port] ++ List.replicate 6 none ++ [none] }) ∧
    is_range_not_persistent c3Subn.opt.lmc c3St.usedLids c3Port.baseLid
      (numLidsFor c3Subn.opt.lmc c3Port) = false ∧
    usedHasB ([none, some ()] ++ List.replicate 6 none ++ [some ()]) 8 = true ∧
    (1, 1, true) ≠ (c3Port.baseLid, c3Port.baseLid, false) := by
  decide

/-- Witness for C3 at the concrete blocked input of the scenario. -/
theorem c3_blocked_reallocates_witness :
    (true = true ∧
     find_free_lid_range c3Subn.opt.lmc c3St.freeRanges
       (numLidsFor c3Subn.opt.lmc c3Port) =
       some ((1, 1), [(2, 0xBFFE)]) ∧
     (∀ i, usedHasB c3St.usedLids i = true →
        usedHasB ([none, some ()] ++ List.replicate 6 none ++ [some ()]) i = true)) :=
  c3_blocked_reallocates (by decide) (by decide)
    (by decide : get_port_lid c3Subn c3St c3Port = some (1, 1, true,
      { guid2lid := [⟨7, 1, 1⟩],
        usedLids := [none, some ()] ++ List.replicate 6 none ++ [some ()],
        freeRanges := [(2, 0xBFFE)],
        portLidTbl := [none, some c3Port] ++ List.replicate 6 none ++ [none] }))

/-! The freedom check refuses every base lid below two to the lmc. -/

theorem is_range_below_start {lmc : Nat} (used : PtrVec Unit) {lid : Nat}
    (numLids : Nat) (h7 : lmc ≤ 7) (hlt : lid < 2 ^ lmc) :
    is_range_not_persistent lmc used lid numLids = false := by
  unfold is_range_not_persistent
  have hpow : (1 <<< lmc) % 256 = 2 ^ lmc := by
    rw [Nat.one_shiftLeft]
    exact Nat.mod_eq_of_lt
      (lt_of_le_of_lt (Nat.pow_le_pow_right (by norm_num) h7) (by norm_num))
  simp [hpow, hlt]

/-- Claim C10 (confirmed). The range freedom check of the resolver
returns not free for every base lid below two to the lmc, whatever the
number of lids requested, so in particular also when the port needs just
one lid; consequently a port without persistent entry whose advertised
base lid lies below two to the lmc is always re-allocated from the free
range list with the changed flag raised. -/
theorem c10_below_start_reallocated :
    (∀ (lmc : Nat) (used : PtrVec Unit) (lid numLids : Nat), lmc ≤ 7 →
       lid < 2 ^ lmc →
       is_range_not_persistent lmc used lid numLids = false) ∧
    (∀ (subn : Subn) (st : MgrState) (p : Port) (mn mx : Nat) (ch : Bool)
       (st1 : MgrState), subn.opt.lmc ≤ 7 →
       g2lGet st.guid2lid p.guid = none →
       p.baseLid < 2 ^ subn.opt.lmc →
       get_port_lid subn st p = some (mn, mx, ch, st1) →
       ch = true ∧
       find_free_lid_range subn.opt.lmc st.freeRanges (numLidsFor subn.opt.lmc p) =
         some ((mn, mx), st1.freeRanges)) := by
  constructor
  · intro lmc used lid numLids h7 hlt
    exact is_range_below_start used numLids h7 hlt
  · intro subn st p mn mx ch st1 h7 hg hlt h
    have hsb : stepBTaken subn st.usedLids p (numLidsFor subn.opt.lmc p)
        (lmcMask subn.opt.lmc) = false := by
      by_cases hz : p.baseLid = 0
      · simp [stepBTaken, hz]
      · simp [stepBTaken, is_range_below_start st.usedLids _ h7 hlt]
    obtain ⟨h1, h2, _⟩ := get_port_lid_step_c hg hsb h
    exact ⟨h1, h2⟩

/-- Witness port for C10: a base switch port zero needing one lid. -/
def c10Port : Port :=
  { guid := 9, baseLid := 1, discMin := 1, discMax := 1,
    isSwitch := true, sp0LmcCapable := false }

/-- Witness subnet for C10: lmc two, so base lids below 4 are refused. -/
def c10Subn : Subn :=
  { opt := { lmc := 2, reassignLids := false, honorGuid2lidFile := false },
    firstTimeMasterSweep := false, comingOutOfStandby := false,
    maxUnicastLidHo := 0xC000, smPortGuid := 1, ports := [c10Port],
    diskGuid2lid := none }

/-- Witness state for C10. -/
def c10St : MgrState :=
  { guid2lid := [], usedLids := [], freeRanges := [(4, 20)], portLidTbl := [] }

/-- Witness for C10: the freedom check refuses lid 1 under lmc two even
for a single lid, and the concrete base switch port advertising base lid
1 is re-allocated to lid 4 from the free range list. -/
theorem c10_below_start_reallocated_witness :
    is_range_not_persistent 2 ([] : PtrVec Unit) 1 1 = false ∧
    (true = true ∧
     find_free_lid_range c10Subn.opt.lmc c10St.freeRanges
       (numLidsFor c10Subn.opt.lmc c10Port) =
       some ((4, 4), [(5, 20)])) :=
  ⟨c10_below_start_reallocated.1 2 [] 1 1 (by decide) (by decide),
   c10_below_start_reallocated.2 c10Subn c10St c10Port 4 4 true
     (commitNew { c10St with
        portLidTbl := cleanup_discovered_port_lid_range c10St.portLidTbl c10Port,
        freeRanges := [(5, 20)] } c10Port 4 4)
     (by decide) (by decide) (by decide) (by decide)⟩

/-- Claim C6 (confirmed). On the first master sweep with reassign lids
set, init_sweep produces the single free range from lid one to the
maximal unicast lid minus one, for every incoming manager state: no
discovered or persistent assignment influences the result. -/
theorem c6_reassign_single_range {subn : Subn} (st : MgrState)
    (h1 : subn.firstTimeMasterSweep = true) (h2 : subn.opt.reassignLids = true) :
    (init_sweep subn st).freeRanges = [(1, subn.maxUnicastLidHo - 1)] := by
  unfold init_sweep
  simp [h1, h2]

/-- Subnet of the C6 witness, with both flags raised and a discovered
port and persistent data that must be ignored. -/
def c6Subn : Subn :=
  { opt := { lmc := 3, reassignLids := true, honorGuid2lidFile := false },
    firstTimeMasterSweep := true, comingOutOfStandby := false,
    maxUnicastLidHo := 0xC000, smPortGuid := 1,
    ports := [{ guid := 7, baseLid := 5, discMin := 5, discMax := 5,
                isSwitch := false, sp0LmcCapable := false }],
    diskGuid2lid := none }

/-- State of the C6 witness, holding persistent data and marks that must
be ignored by the shortcut. -/
def c6St : MgrState :=
  { guid2lid := [⟨7, 5, 5⟩], usedLids := List.replicate 5 none ++ [some ()],
    freeRanges := [(9, 12)], portLidTbl := [] }

/-- Witness for C6 at a concrete state full of history to be ignored. -/
theorem c6_reassign_single_range_witness :
    (init_sweep c6Subn c6St).freeRanges = [(1, 0xBFFF)] :=
  c6_reassign_single_range c6St (by decide) (by decide)

/-- Claim C8 (corrected). When coming out of standby the initializer
clears the in memory map in both branches; it reloads the map from disk
and keeps used_lids untouched when the guid2lid file is honored, and it
zeroes used_lids only when the file is not honored. -/
theorem c8_standby_prep {subn : Subn} (g2l : List G2lEntry) (used : PtrVec Unit)
    (h : subn.comingOutOfStandby = true) :
    standbyPrep subn g2l used =
      if subn.opt.honorGuid2lidFile then (subn.diskGuid2lid.getD [], used)
      else ([], used.map (fun _ => none)) := by
  unfold standbyPrep
  rw [if_pos h]
  by_cases hh : subn.opt.honorGuid2lidFile = true <;> simp [hh]

/-- Subnet of the C8 scenario: coming out of standby with the guid2lid
file honored. -/
def c8Subn : Subn :=
  { opt := { lmc := 0, reassignLids := false, honorGuid2lidFile := true },
    firstTimeMasterSweep := false, comingOutOfStandby := true,
    maxUnicastLidHo := 0xC000, smPortGuid := 1, ports := [],
    diskGuid2lid := some [] }

/-- State of the C8 scenario: used_lids holds a mark at lid one. -/
def c8St : MgrState :=
  { guid2lid := [⟨3, 1, 1⟩], usedLids := [none, some ()], freeRanges := [],
    portLidTbl := [] }

/-- Claim C8 counterexample: coming out of standby with
honor_guid2lid_file true, the whole initializer leaves the mark at lid
one in used_lids in place, so used_lids is not zeroed in that branch. -/
theorem c8_counterexample :
    (init_sweep c8Subn c8St).usedLids = [none, some ()] ∧
    c8Subn.comingOutOfStandby = true ∧
    c8Subn.opt.honorGuid2lidFile = true ∧
    ((init_sweep c8Subn c8St).usedLids.all (fun c => c.isNone)) = false := by
  decide

/-- Witness for C8 at the concrete standby state of the scenario. -/
theorem c8_standby_prep_witness :
    standbyPrep c8Subn [⟨3, 1, 1⟩] [none, some ()] =
      (if c8Subn.opt.honorGuid2lidFile
       then (c8Subn.diskGuid2lid.getD [], ([none, some ()] : PtrVec Unit))
       else ([], ([none, some ()] : PtrVec Unit).map (fun _ => none))) :=
  c8_standby_prep _ _ (by decide)

/-- Claim C9 (confirmed). When the lookup of the SM port by its guid
fails, process_sm returns done with no PortInfo set request emitted; when
the lookup succeeds and the resolver completes, process_sm returns done
pending exactly when configuring the SM port raised send_set_reqs, and
done otherwise. -/
theorem c9_process_sm_signal {subn : Subn} {dec : Port → Bool} {st : MgrState} :
    (subn.ports.find? (fun q => q.guid == subn.smPortGuid) = none →
       process_sm subn dec st = some (OsmSignal.done, init_sweep subn st, [])) ∧
    (∀ (p : Port) (mn mx : Nat) (ch : Bool) (st2 : MgrState),
       subn.ports.find? (fun q => q.guid == subn.smPortGuid) = some p →
       get_port_lid subn (init_sweep subn st) p = some (mn, mx, ch, st2) →
       process_sm subn dec st =
         some (if dec p then OsmSignal.donePending else OsmSignal.done, st2,
               if dec p then [p] else [])) := by
  constructor
  · intro hn
    unfold process_sm
    rw [hn]
    rfl
  · intro p mn mx ch st2 hp hres
    unfold process_sm
    rw [hp]
    simp only [hres]
    by_cases hd : dec p = true <;> simp [hd, osmSignalOf]

/-- Port of the C9 witness. -/
def c9Port : Port :=
  { guid := 7, baseLid := 4, discMin := 4, discMax := 4,
    isSwitch := false, sp0LmcCapable := false }

/-- Subnet of the C9 witness where the SM port lookup fails. -/
def c9aSubn : Subn :=
  { opt := { lmc := 0, reassignLids := false, honorGuid2lidFile := false },
    firstTimeMasterSweep := false, comingOutOfStandby := false,
    maxUnicastLidHo := 0xC000, smPortGuid := 1, ports := [c9Port],
    diskGuid2lid := none }

/-- Subnet of the C9 witness where the SM port lookup succeeds. -/
def c9bSubn : Subn :=
  { opt := { lmc := 0, reassignLids := false, honorGuid2lidFile := false },
    firstTimeMasterSweep := false, comingOutOfStandby := false,
    maxUnicastLidHo := 0xC000, smPortGuid := 7, ports := [c9Port],
    diskGuid2lid := none }

/-- Initial state of the C9 witness. -/
def c9St : MgrState :=
  { guid2lid := [], usedLids := [], freeRanges := [], portLidTbl := [] }

/-- State after the C9 witness resolves the SM port to lid 4. -/
def c9St2 : MgrState :=
  { guid2lid := [⟨7, 4, 4⟩],
    usedLids := [none, none, none, none, some ()],
    freeRanges := [(1, 3), (5, 0xBFFF)],
    portLidTbl := [none, none, none, none, some c9Port] }

/-- Witness for C9: a failed lookup yields done with no requests, and a
successful lookup with a configurator that sends yields done pending with
one request for the SM port. -/
theorem c9_process_sm_signal_witness :
    process_sm c9aSubn (fun _ => false) c9St =
      some (OsmSignal.done, init_sweep c9aSubn c9St, []) ∧
    process_sm c9bSubn (fun _ => true) c9St =
      some (OsmSignal.donePending, c9St2, [c9Port]) :=
  ⟨(c9_process_sm_signal).1 (by decide),
   (c9_process_sm_signal).2 c9Port 4 4 false c9St2 (by decide) (by decide)⟩

/-! Preservation lemmas for the first pass of init_sweep: it never adds a
guid2lid entry and never sets a used_lids cell. -/

theorem pvGet_pvFill_none_mono {u : PtrVec Unit} {lo cnt L : Nat}
    (h : pvGet u L = none) : pvGet (pvFill u lo cnt (none : Option Unit)) L = none := by
  by_cases hin : lo ≤ L ∧ L < lo + cnt
  · exact pvGet_pvFill_in hin.1 hin.2
  · rcases Nat.lt_or_ge L lo with h2 | h2
    · rwa [pvGet_pvFill_lt h2]
    · rw [pvGet_pvFill_ge (by omega)]
      exact h

theorem firstPass_g2l_none_mono {subn : Subn} {lmcM : Nat} {g : Nat} :
    ∀ (ports : List Port) (g2l : List G2lEntry) (used : PtrVec Unit) (tbl : PtrVec Port),
    g2lGet g2l g = none →
    g2lGet (firstPass subn lmcM ports g2l used tbl).1 g = none := by
  intro ports
  induction ports with
  | nil =>
    intro g2l used tbl h
    exact h
  | cons q rest ih =>
    intro g2l used tbl h
    rw [firstPass]
    cases hq : g2lGet g2l q.guid with
    | none => exact ih _ _ _ h
    | some r =>
      obtain ⟨dbMn, dbMx⟩ := r
      simp only
      split
      · apply ih
        by_cases hgq : g = q.guid
        · subst hgq
          exact g2lGet_g2lDelete_self _ _
        · rw [g2lGet_g2lDelete_ne _ hgq]
          exact h
      · exact ih _ _ _ h

theorem firstPass_used_none_mono {subn : Subn} {lmcM : Nat} {L : Nat} :
    ∀ (ports : List Port) (g2l : List G2lEntry) (used : PtrVec Unit) (tbl : PtrVec Port),
    pvGet used L = none →
    pvGet (firstPass subn lmcM ports g2l used tbl).2.1 L = none := by
  intro ports
  induction ports with
  | nil =>
    intro g2l used tbl h
    exact h
  | cons q rest ih =>
    intro g2l used tbl h
    rw [firstPass]
    cases hq : g2lGet g2l q.guid with
    | none => exact ih _ _ _ h
    | some r =>
      obtain ⟨dbMn, dbMx⟩ := r
      simp only
      split
      · exact ih _ _ _ (pvGet_pvFill_none_mono h)
      · exact ih _ _ _ h

theorem firstPass_deletes {subn : Subn} {lmcM : Nat} {p : Port} {dmn dmx : Nat} :
    ∀ (ports : List Port) (g2l : List G2lEntry) (used : PtrVec Unit) (tbl : PtrVec Port),
    (ports.map Port.guid).Nodup →
    p ∈ ports →
    g2lGet g2l p.guid = some (dmn, dmx) →
    ((numLidsFor subn.opt.lmc p != 1) &&
      (((dmn &&& lmcM) != dmn) ||
       decide ((dmx : Int) - (dmn : Int) + 1 < (numLidsFor subn.opt.lmc p : Int)))) = true →
    g2lGet (firstPass subn lmcM ports g2l used tbl).1 p.guid = none ∧
    (∀ L, dmn ≤ L → L ≤ dmx → pvGet (firstPass subn lmcM ports g2l used tbl).2.1 L = none) := by
  intro ports
  induction ports with
  | nil =>
    intro g2l used tbl _ hmem
    cases hmem
  | cons q rest ih =>
    intro g2l used tbl hnd hmem hget hcond
    rcases List.mem_cons.mp hmem with hpq | hptail
    · subst hpq
      rw [firstPass]
      rw [hget]
      simp only
      rw [if_pos hcond]
      constructor
      · apply firstPass_g2l_none_mono
        exact g2lGet_g2lDelete_self _ _
      · intro L h1 h2
        apply firstPass_used_none_mono
        exact pvGet_pvFill_in h1 (by omega)
    · have hqne : q.guid ≠ p.guid := by
        intro he
        have hq1 : q.guid ∉ rest.map Port.guid := (List.nodup_cons.mp hnd).1
        exact hq1 (he ▸ List.mem_map_of_mem Port.guid hptail)
      rw [firstPass]
      cases hq : g2lGet g2l q.guid with
      | none =>
        exact ih _ _ _ (List.nodup_cons.mp hnd).2 hptail hget hcond
      | some r =>
        obtain ⟨dbMn, dbMx⟩ := r
        simp only
        split
        · apply ih _ _ _ (List.nodup_cons.mp hnd).2 hptail _ hcond
          rw [g2lGet_g2lDelete_ne _ (Ne.symm hqne)]
          exact hget
        · exact ih _ _ _ (List.nodup_cons.mp hnd).2 hptail hget hcond

/-- Claim C7 (corrected). In the first pass of init_sweep, a persistent
entry of a discovered port that is misaligned under the current lmc or
narrower than the lid count the port needs is deleted, and its used_lids
cells are cleared, only when the port needs more than one lid; the code
guards the whole test with num_lids different from one, so for a base
switch port zero a misaligned entry is kept. Under that guard the
deletion and the clearing hold through the whole initializer. -/
theorem c7_first_pass_cleanup {subn : Subn} {st : MgrState} {p : Port}
    {dmn dmx : Nat}
    (hstand : subn.comingOutOfStandby = false)
    (hshort : (subn.firstTimeMasterSweep && subn.opt.reassignLids) = false)
    (hnd : (subn.ports.map Port.guid).Nodup)
    (hmem : p ∈ subn.ports)
    (hget : g2lGet st.guid2lid p.guid = some (dmn, dmx))
    (hnum : numLidsFor subn.opt.lmc p ≠ 1)
    (hbad : (dmn &&& lmcMask subn.opt.lmc) ≠ dmn ∨
            (dmx : Int) - (dmn : Int) + 1 < (numLidsFor subn.opt.lmc p : Int)) :
    g2lGet (init_sweep subn st).guid2lid p.guid = none ∧
    (∀ L, dmn ≤ L → L ≤ dmx → pvGet (init_sweep subn st).usedLids L = none) := by
  have hcond : ((numLidsFor subn.opt.lmc p != 1) &&
      (((dmn &&& lmcMask subn.opt.lmc) != dmn) ||
       decide ((dmx : Int) - (dmn : Int) + 1 <
         (numLidsFor subn.opt.lmc p : Int)))) = true := by
    rcases hbad with hb | hb <;> simp [hnum, hb]
  have hpre : standbyPrep subn st.guid2lid st.usedLids = (st.guid2lid, st.usedLids) := by
    unfold standbyPrep
    rw [if_neg (by simp [hstand])]
  have hmain := @firstPass_deletes subn (lmcMask subn.opt.lmc) p dmn dmx
      subn.ports st.guid2lid st.usedLids (st.portLidTbl.map (fun _ => none))
      hnd hmem hget hcond
  unfold init_sweep
  rw [hpre]
  simp only [hshort, Bool.false_eq_true, if_false]
  exact hmain

/-- Port of the C7 scenario: a base switch port zero, needing one lid. -/
def c7Port : Port :=
  { guid := 7, baseLid := 5, discMin := 5, discMax := 5,
    isSwitch := true, sp0LmcCapable := false }

/-- Subnet of the C7 scenario: lmc two, so the stored entry 5 .. 5 is
misaligned under the mask 0xfffc. -/
def c7Subn : Subn :=
  { opt := { lmc := 2, reassignLids := false, honorGuid2lidFile := false },
    firstTimeMasterSweep := false, comingOutOfStandby := false,
    maxUnicastLidHo := 0xC000, smPortGuid := 1, ports := [c7Port],
    diskGuid2lid := none }

/-- State of the C7 scenario, with the misaligned persistent entry marked
in used_lids. -/
def c7St : MgrState :=
  { guid2lid := [⟨7, 5, 5⟩], usedLids := List.replicate 5 none ++ [some ()],
    freeRanges := [], portLidTbl := [] }

/-- Claim C7 counterexample: the persistent entry 5 .. 5 of the
discovered base switch port zero is misaligned under the current lmc
mask, yet the first pass keeps it, because the port needs only one lid
and the code guards the cleanup with num_lids different from one. -/
theorem c7_counterexample :
    (init_sweep c7Subn c7St).guid2lid = [⟨7, 5, 5⟩] ∧
    ((5 : Nat) &&& lmcMask c7Subn.opt.lmc) ≠ 5 ∧
    numLidsFor c7Subn.opt.lmc c7Port = 1 ∧
    pvGet (init_sweep c7Subn c7St).usedLids 5 = some () := by
  decide

/-- Port of the C7 witness: a host port needing four lids. -/
def c7wPort : Port :=
  { guid := 7, baseLid := 5, discMin := 5, discMax := 5,
    isSwitch := false, sp0LmcCapable := false }

/-- Subnet of the C7 witness. -/
def c7wSubn : Subn :=
  { opt := { lmc := 2, reassignLids := false, honorGuid2lidFile := false },
    firstTimeMasterSweep := false, comingOutOfStandby := false,
    maxUnicastLidHo := 0xC000, smPortGuid := 1, ports := [c7wPort],
    diskGuid2lid := none }

/-- State of the C7 witness, with the misaligned and narrow entry 5 .. 5
marked in used_lids. -/
def c7wSt : MgrState :=
  { guid2lid := [⟨7, 5, 5⟩], usedLids := List.replicate 5 none ++ [some ()],
    freeRanges := [], portLidTbl := [] }

/-- Witness for C7: for the four lid port the misaligned narrow entry is
deleted by the initializer and its used_lids cell is cleared. -/
theorem c7_first_pass_cleanup_witness :
    g2lGet (init_sweep c7wSubn c7wSt).guid2lid c7wPort.guid = none ∧
    pvGet (init_sweep c7wSubn c7wSt).usedLids 5 = none :=
  ⟨(@c7_first_pass_cleanup c7wSubn c7wSt c7wPort 5 5 (by decide) (by decide)
      (by decide) (by decide) (by decide) (by decide) (Or.inl (by decide))).1,
   (@c7_first_pass_cleanup c7wSubn c7wSt c7wPort 5 5 (by decide) (by decide)
      (by decide) (by decide) (by decide) (by decide) (Or.inl (by decide))).2
     5 (by decide) (by decide)⟩

/-- An entry of the store covers a lid for a guid. -/
def coversLid (g2l : List G2lEntry) (g L : Nat) : Prop :=
  ∃ emn emx, g2lGet g2l g = some (emn, emx) ∧ emn ≤ L ∧ L ≤ emx

/-- Invariant of the loop of process_subnet: if every occupied cell of
port_lid_tbl belongs to an already processed port whose store entry
covers it, and every remaining non SM port with a store entry has an
entry at least as wide as the lid count it needs, then after the loop
every occupied cell is covered by the store entry of its port. -/
theorem processSubnetGo_inv {subn : Subn} {dec : Port → Bool} :
    ∀ (rest : List Port) (st : MgrState) (sends : Bool),
    (∀ L q, pvGet st.portLidTbl L = some q →
        q.guid ∉ rest.map Port.guid ∧ coversLid st.guid2lid q.guid L) →
    (∀ q ∈ rest, (q.guid == subn.smPortGuid) = false →
        ∀ emn emx, g2lGet st.guid2lid q.guid = some (emn, emx) →
        emn + numLidsFor subn.opt.lmc q - 1 ≤ emx) →
    (rest.map Port.guid).Nodup →
    ∀ {sig : OsmSignal} {st1 : MgrState} {sends1 : Bool},
    processSubnetGo subn dec rest st sends = some (sig, st1, sends1) →
    ∀ L q, pvGet st1.portLidTbl L = some q → coversLid st1.guid2lid q.guid L := by
  intro rest
  induction rest with
  | nil =>
    intro st sends hA _ _ sig st1 sends1 h L q hq
    rw [processSubnetGo] at h
    simp only [Option.some.injEq, Prod.mk.injEq] at h
    obtain ⟨_, h2, _⟩ := h
    subst h2
    exact (hA L q hq).2
  | cons q rest ih =>
    intro st sends hA hB hC sig st1 sends1 h L r hr
    rw [processSubnetGo] at h
    by_cases hsm : (q.guid == subn.smPortGuid) = true
    · rw [if_pos hsm] at h
      refine ih st sends ?_ ?_ (List.nodup_cons.mp hC).2 h L r hr
      · intro L2 q2 hq2
        obtain ⟨hn, hcov⟩ := hA L2 q2 hq2
        exact ⟨fun hmem => hn (List.mem_cons_of_mem _ hmem), hcov⟩
      · intro q2 hq2 hq2sm emn emx hget
        exact hB q2 (List.mem_cons_of_mem _ hq2) hq2sm emn emx hget
    · rw [if_neg hsm] at h
      cases hgp : get_port_lid subn st q with
      | none =>
        rw [hgp] at h
        cases h
      | some res =>
        obtain ⟨mn, mx, ch, st2⟩ := res
        rw [hgp] at h
        obtain ⟨hin, hsub, hne, hmatch⟩ := get_port_lid_cases hgp
        have hqguid : q.guid ∉ rest.map Port.guid := (List.nodup_cons.mp hC).1
        have hqcov : coversLid st2.guid2lid q.guid L →
            coversLid st2.guid2lid q.guid L := id
        refine ih st2 _ ?_ ?_ (List.nodup_cons.mp hC).2 h L r hr
        · intro L2 q2 hq2
          rcases hsub L2 q2 hq2 with ⟨hq2q, hL1, hL2⟩ | hold
          · rw [hq2q]
            refine ⟨hqguid, ?_⟩
            cases hgq : g2lGet st.guid2lid q.guid with
            | some rng =>
              obtain ⟨emn, emx⟩ := rng
              rw [hgq] at hmatch
              obtain ⟨hg2l, _, hmn, hmx⟩ := hmatch
              have hwidth := hB q (List.mem_cons_self q rest)
                (by simpa using hsm) emn emx hgq
              refine ⟨emn, emx, ?_, ?_, ?_⟩
              · rw [hg2l]
                exact hgq
              · omega
              · omega
            | none =>
              rw [hgq] at hmatch
              exact ⟨mn, mx, hmatch.1, hL1, hL2⟩
          · obtain ⟨hn, hcov⟩ := hA L2 q2 hold
            have hq2ne : q2.guid ≠ q.guid := by
              intro he
              exact hn (by rw [he]; exact List.mem_cons_self _ _)
            refine ⟨fun hmem => hn (List.mem_cons_of_mem _ hmem), ?_⟩
            obtain ⟨emn, emx, hget2, hc1, hc2⟩ := hcov
            refine ⟨emn, emx, ?_, hc1, hc2⟩
            rw [hne q2.guid hq2ne]
            exact hget2
        · intro q2 hq2 hq2sm emn emx hget
          have hq2ne : q2.guid ≠ q.guid := by
            intro he
            exact hqguid (he ▸ List.mem_map_of_mem Port.guid hq2)
          rw [hne q2.guid hq2ne] at hget
          exact hB q2 (List.mem_cons_of_mem _ hq2) hq2sm emn emx hget

/-- Claim C2 (corrected). Under the preconditions that port_lid_tbl is
empty at entry, that the persistent entry of every discovered non SM port
is at least as wide as the lid count the port needs, and that the
discovered guids are distinct, after process_subnet every lid L whose
port_lid_tbl cell holds a port p is covered by a persistent entry of
p.guid: the store holds (p.guid, emn, emx) with emn at most L at most
emx. Without the width precondition the invariant fails, as the
counterexample shows. -/
theorem c2_table_agreement {subn : Subn} {dec : Port → Bool} {st : MgrState}
    (hEmpty : ∀ L, pvGet st.portLidTbl L = none)
    (hWidth : ∀ q ∈ subn.ports, (q.guid == subn.smPortGuid) = false →
        ∀ emn emx, g2lGet st.guid2lid q.guid = some (emn, emx) →
        emn + numLidsFor subn.opt.lmc q - 1 ≤ emx)
    (hNodup : (subn.ports.map Port.guid).Nodup)
    {sig : OsmSignal} {st1 : MgrState} {sends1 : Bool}
    (h : process_subnet subn dec st = some (sig, st1, sends1)) :
    ∀ L p, pvGet st1.portLidTbl L = some p → coversLid st1.guid2lid p.guid L := by
  refine processSubnetGo_inv subn.ports st false ?_ hWidth hNodup h
  intro L q hq
  rw [hEmpty L] at hq
  cases hq

/-- Port of the C2 scenario. -/
def c2Port : Port :=
  { guid := 7, baseLid := 10, discMin := 10, discMax := 10,
    isSwitch := false, sp0LmcCapable := false }

/-- Subnet of the C2 scenario: lmc two, four lids per port. -/
def c2Subn : Subn :=
  { opt := { lmc := 2, reassignLids := false, honorGuid2lidFile := false },
    firstTimeMasterSweep := false, comingOutOfStandby := false,
    maxUnicastLidHo := 0xC000, smPortGuid := 1, ports := [c2Port],
    diskGuid2lid := none }

/-- State of the C2 scenario: the stored entry of the port is the narrow
range 10 .. 10, which survives a persistent hit unchanged. -/
def c2St : MgrState :=
  { guid2lid := [⟨7, 10, 10⟩], usedLids := [], freeRanges := [(1, 0xBFFF)],
    portLidTbl := [] }

/-- Claim C2 counterexample: after process_subnet the cell of lid 13
holds the port, but the persistent map still holds the entry 10 .. 10 for
its guid, and 13 is not inside 10 .. 10, so the stated invariant fails
without the width precondition. -/
theorem c2_counterexample :
    process_subnet c2Subn (fun _ => false) c2St = some (OsmSignal.done,
      { guid2lid := [⟨7, 10, 10⟩], usedLids := [], freeRanges := [(1, 0xBFFF)],
        portLidTbl := List.replicate 10 none ++ List.replicate 4 (some c2Port) },
      false) ∧
    pvGet (List.replicate 10 (none : Option Port) ++ List.replicate 4 (some c2Port)) 13 =
      some c2Port ∧
    g2lGet [(⟨7, 10, 10⟩ : G2lEntry)] c2Port.guid = some (10, 10) ∧
    ¬((10 : Nat) ≤ 13 ∧ (13 : Nat) ≤ 10) := by
  decide

/-- Port of the C2 witness. -/
def c2wPort : Port :=
  { guid := 9, baseLid := 4, discMin := 4, discMax := 4,
    isSwitch := false, sp0LmcCapable := false }

/-- Subnet of the C2 witness: one non SM port, lmc zero. -/
def c2wSubn : Subn :=
  { opt := { lmc := 0, reassignLids := false, honorGuid2lidFile := false },
    firstTimeMasterSweep := false, comingOutOfStandby := false,
    maxUnicastLidHo := 0xC000, smPortGuid := 1, ports := [c2wPort],
    diskGuid2lid := none }

/-- State of the C2 witness: empty store and tables. -/
def c2wSt : MgrState :=
  { guid2lid := [], usedLids := [], freeRanges := [(1, 10)], portLidTbl := [] }

/-- Witness for C2: after the concrete run that keeps the advertised lid
4 of the witness port, the cell of lid 4 is covered by the committed
store entry. -/
theorem c2_table_agreement_witness :
    coversLid (commitNew c2wSt c2wPort 4 4).guid2lid c2wPort.guid 4 :=
  c2_table_agreement
    (fun L => by simp [pvGet, c2wSt])
    (fun q hq hqsm emn emx hget => by simp [c2wSt, g2lGet] at hget)
    (by decide)
    (by decide : process_subnet c2wSubn (fun _ => false) c2wSt =
      some (OsmSignal.done, commitNew c2wSt c2wPort 4 4, false))
    4 c2wPort (by decide)

/-! Equivalence of the validator with its specification reading. -/

theorem any_used_eq (used : PtrVec Unit) : ∀ l : List Nat,
    l.any (fun lid => decide (used.length > lid) && (pvGet used lid).isSome)
      = l.any (fun lid => usedHasB used lid) := by
  intro l
  induction l with
  | nil => rfl
  | cons x t ih =>
    simp only [List.any_cons, ih]
    congr 1
    by_cases hx : x < used.length
    · simp [hx, usedHasB]
    · simp [hx, usedHasB, pvGet_of_ge (by omega : used.length ≤ x)]

theorem entryLidsOk_eq_not_specRejects (lmcM maxU : Nat) (used : PtrVec Unit)
    (e : G2lEntry) :
    entryLidsOk lmcM maxU used e.guid e.minLid e.maxLid
      = !specRejects lmcM maxU used e := by
  unfold entryLidsOk specRejects
  rw [any_used_eq]
  cases hA1 : (decide (e.minLid > e.maxLid)) <;>
    cases hA2 : (e.minLid == 0) <;>
    cases hA3 : (e.guid == 0) <;>
    cases hA4 : (decide (e.maxLid > maxU)) <;>
    cases hB : (e.minLid != e.maxLid && ((e.minLid &&& lmcM) != e.minLid)) <;>
    cases hC : (List.range' e.minLid (e.maxLid + 1 - e.minLid)).any
      (fun lid => usedHasB used lid) <;>
    rfl

theorem g2lGet_self_of_nodup : ∀ (s : List G2lEntry),
    (s.map G2lEntry.guid).Nodup →
    ∀ e ∈ s, g2lGet s e.guid = some (e.minLid, e.maxLid) := by
  intro s
  induction s with
  | nil =>
    intro _ e he
    cases he
  | cons a t ih =>
    intro hnd e he
    rcases List.mem_cons.mp he with hea | het
    · subst hea
      unfold g2lGet
      rw [List.find?_cons_of_pos _ (by simp)]
      rfl
    · have hane : (a.guid == e.guid) = false := by
        have : a.guid ∉ t.map G2lEntry.guid := (List.nodup_cons.mp hnd).1
        have : a.guid ≠ e.guid := fun hc =>
          this (hc ▸ List.mem_map_of_mem G2lEntry.guid het)
        simpa using this
      unfold g2lGet
      rw [List.find?_cons_of_neg _ (by simp only [hane]; exact Bool.false_ne_true)]
      exact ih (List.nodup_cons.mp hnd).2 e het

theorem validate_agrees {lmcM maxU : Nat} :
    ∀ (es : List G2lEntry) (s : List G2lEntry) (used : PtrVec Unit),
    (∀ e ∈ es, g2lGet s e.guid = some (e.minLid, e.maxLid)) →
    (es.map G2lEntry.guid).Nodup →
    validate_db lmcM maxU (es.map G2lEntry.guid) s used =
      spec_validate lmcM maxU es s used := by
  intro es
  induction es with
  | nil =>
    intro s used _ _
    rfl
  | cons e t ih =>
    intro s used hget hnd
    rw [List.map_cons, validate_db, spec_validate]
    rw [hget e (List.mem_cons_self e t)]
    simp only
    rcases Bool.eq_false_or_eq_true (specRejects lmcM maxU used e) with hr | hr
    · have hok : entryLidsOk lmcM maxU used e.guid e.minLid e.maxLid = false := by
        rw [entryLidsOk_eq_not_specRejects, hr]
        rfl
      rw [if_neg (by simp [hok]), if_pos hr]
      refine ih _ _ ?_ (List.nodup_cons.mp hnd).2
      intro e2 he2
      have hne : e2.guid ≠ e.guid := by
        have h1 : e.guid ∉ t.map G2lEntry.guid := (List.nodup_cons.mp hnd).1
        intro hc
        exact h1 (hc ▸ List.mem_map_of_mem G2lEntry.guid he2)
      rw [g2lGet_g2lDelete_ne _ hne]
      exact hget e2 (List.mem_cons_of_mem _ he2)
    · have hok : entryLidsOk lmcM maxU used e.guid e.minLid e.maxLid = true := by
        rw [entryLidsOk_eq_not_specRejects, hr]
        rfl
      rw [if_pos hok, if_neg (by simp [hr])]
      exact ih s _ (fun e2 he2 => hget e2 (List.mem_cons_of_mem _ he2))
        (List.nodup_cons.mp hnd).2

theorem validate_db_sublist {lmcM maxU : Nat} :
    ∀ (gs : List Nat) (s : List G2lEntry) (used : PtrVec Unit),
    (validate_db lmcM maxU gs s used).1.Sublist s := by
  intro gs
  induction gs with
  | nil =>
    intro s used
    exact List.Sublist.refl s
  | cons g t ih =>
    intro s used
    rw [validate_db]
    cases hg : g2lGet s g with
    | none => exact ih s used
    | some r =>
      obtain ⟨mn, mx⟩ := r
      simp only
      split
      · exact ih s _
      · exact (ih _ used).trans (List.filter_sublist s)

/-- Claim C4 (confirmed). The validator walked over the guid snapshot of
a store with distinct guids deletes an entry exactly when the guid is
zero, the minimum lid is zero, the range is inverted, the maximum lid
exceeds the maximal unicast lid, a multi lid range is misaligned under
the lmc mask, or a lid of the range is already marked used; every other
entry has its whole range marked used. This is stated as equality with
the specification fold spec_validate, together with the fact that the
resulting store is a sublist of the input store: the validator never adds
entries and marks no lids outside accepted ranges. -/
theorem c4_validate_db_spec (lmcM maxU : Nat) (store : List G2lEntry)
    (used : PtrVec Unit) (hnd : (store.map G2lEntry.guid).Nodup) :
    validate_db lmcM maxU (store.map G2lEntry.guid) store used =
      spec_validate lmcM maxU store store used ∧
    (validate_db lmcM maxU (store.map G2lEntry.guid) store used).1.Sublist store :=
  ⟨validate_agrees store store used (g2lGet_self_of_nodup store hnd) hnd,
   validate_db_sublist _ _ _⟩

/-- Witness store for C4: a valid aligned entry, a misaligned multi lid
entry, and an illegal entry with minimum lid zero. -/
def c4Store : List G2lEntry := [⟨1, 4, 7⟩, ⟨2, 6, 9⟩, ⟨3, 0, 0⟩]

/-- Witness for C4 at the concrete store under lmc two. -/
theorem c4_validate_db_spec_witness :
    validate_db (lmcMask 2) 0xBFFF (c4Store.map G2lEntry.guid) c4Store [] =
      spec_validate (lmcMask 2) 0xBFFF c4Store c4Store [] ∧
    (validate_db (lmcMask 2) 0xBFFF (c4Store.map G2lEntry.guid) c4Store []).1.Sublist
      c4Store :=
  c4_validate_db_spec (lmcMask 2) 0xBFFF c4Store [] (by decide)

/-! Bit level characterization of the lmc mask, needed to relate the mask
arithmetic of the C code to alignment on multiples of two to the lmc. -/

theorem land_high_mask {k y : Nat} (hk : k ≤ 16) (hy : y < 65536) :
    y &&& (65535 ^^^ (2 ^ k - 1)) = 2 ^ k * (y / 2 ^ k) := by
  apply Nat.eq_of_testBit_eq
  intro i
  rw [Nat.testBit_and, Nat.testBit_xor]
  have h16 : (65535 : Nat) = 2 ^ 16 - 1 := by norm_num
  rw [h16, Nat.testBit_two_pow_sub_one, Nat.testBit_two_pow_sub_one]
  rw [Nat.testBit_mul_pow_two]
  have hdiv : y / 2 ^ k = y >>> k := (Nat.shiftRight_eq_div_pow y k).symm
  rw [hdiv, Nat.testBit_shiftRight]
  by_cases hik : i < k
  · simp [hik, Nat.lt_of_lt_of_le hik hk, Nat.not_le.mpr hik]
  · by_cases hi16 : i < 16
    · have hki : k + (i - k) = i := by omega
      rw [hki]
      simp [hik, hi16, Nat.le_of_not_lt hik]
    · have hki : k + (i - k) = i := by omega
      rw [hki]
      have h2i : (65536 : Nat) ≤ 2 ^ i := by
        calc (65536 : Nat) = 2 ^ 16 := by norm_num
        _ ≤ 2 ^ i := Nat.pow_le_pow_right (by norm_num) (by omega)
      have hbit : y.testBit i = false := Nat.testBit_lt_two_pow (by omega)
      simp [hbit, hi16]

theorem lmcMask_eq_xor (lmc : Nat) : lmcMask lmc = 65535 ^^^ (2 ^ lmc - 1) := by
  unfold lmcMask
  by_cases h : lmc = 0
  · subst h
    rfl
  · rw [if_pos (by simpa using h), Nat.one_shiftLeft]

theorem land_lmcMask_eq {lmc y : Nat} (hk : lmc ≤ 16) (hy : y < 65536) :
    y &&& lmcMask lmc = y - y % 2 ^ lmc := by
  rw [lmcMask_eq_xor, land_high_mask hk hy]
  have := Nat.div_add_mod y (2 ^ lmc)
  omega

theorem land_lmcMask_self_iff {lmc y : Nat} (hk : lmc ≤ 16) (hy : y < 65536) :
    (y &&& lmcMask lmc) = y ↔ y % 2 ^ lmc = 0 := by
  rw [land_lmcMask_eq hk hy]
  have h1 : y % 2 ^ lmc ≤ y := Nat.mod_le _ _
  have h2 : 0 < 2 ^ lmc := Nat.pos_pow_of_pos lmc (by norm_num)
  omega

/-! Characterization of the search for the smallest aligned lid. -/

theorem range'_find?_eq_some {p : Nat → Bool} :
    ∀ {cnt a d : Nat}, a ≤ d → d < a + cnt → p d = true →
    (∀ j, a ≤ j → j < d → p j = false) →
    (List.range' a cnt).find? p = some d := by
  intro cnt
  induction cnt with
  | zero =>
    intro a d h1 h2
    omega
  | succ n ih =>
    intro a d h1 h2 hp hmin
    show (a :: List.range' (a + 1) n).find? p = some d
    by_cases had : a = d
    · subst had
      rw [List.find?_cons_of_pos _ hp]
    · rw [List.find?_cons_of_neg _ (by simp [hmin a (Nat.le_refl a) (by omega)])]
      exact ih (by omega) (by omega) hp (fun j hj1 hj2 => hmin j (by omega) hj2)

theorem alignUpSpec_eq {step lo : Nat} (hstep : 0 < step) :
    alignUpSpec step lo =
      lo + (if lo % step = 0 then 0 else step - lo % step) := by
  unfold alignUpSpec
  have hmlt : lo % step < step := Nat.mod_lt lo hstep
  have hfind : (List.range (step + 1)).find? (fun d => (lo + d) % step == 0) =
      some (if lo % step = 0 then 0 else step - lo % step) := by
    rw [List.range_eq_range']
    apply range'_find?_eq_some
    · omega
    · split <;> omega
    · have hdm := Nat.div_add_mod lo step
      by_cases h0 : lo % step = 0
      · rw [if_pos h0]
        simp [Nat.add_zero, h0]
      · rw [if_neg h0]
        have hmul : step * (lo / step + 1) = step * (lo / step) + step := by ring
        have hrw : lo + (step - lo % step) = step * (lo / step + 1) := by omega
        simp [hrw, Nat.mul_mod_right]
    · intro j _ hj
      by_cases h0 : lo % step = 0
      · rw [if_pos h0] at hj
        omega
      · rw [if_neg h0] at hj
        have hrw : (lo + j) % step = lo % step + j := by
          rw [Nat.add_mod]
          rw [Nat.mod_eq_of_lt (show j < step by omega)]
          exact Nat.mod_eq_of_lt (by omega)
        simp [hrw]
        omega
  rw [hfind]
  rfl

/-! Equality of the start lid computed by the code with the smallest
aligned lid of the specification. -/

theorem find_free_head_start {lmc numLids lo : Nat} (h7 : lmc ≤ 7)
    (hN : numLids = 1 ∨ numLids = 1 <<< lmc) (hlo : lo ≤ 49151) :
    (if numLids > 1 && ((lo &&& lmcMask lmc) != lo)
     then (lo + ((1 <<< lmc) % 256)) &&& lmcMask lmc else lo)
      = (if numLids == 1 then lo else alignUpSpec (2 ^ lmc) lo) := by
  have hpow : (1 <<< lmc) % 256 = 2 ^ lmc := by
    rw [Nat.one_shiftLeft]
    exact Nat.mod_eq_of_lt
      (lt_of_le_of_lt (Nat.pow_le_pow_right (by norm_num) h7) (by norm_num))
  have hstep : 0 < 2 ^ lmc := Nat.pos_pow_of_pos lmc (by norm_num)
  have hple : 2 ^ lmc ≤ 128 := by
    calc 2 ^ lmc ≤ 2 ^ 7 := Nat.pow_le_pow_right (by norm_num) h7
    _ = 128 := by norm_num
  have hshift : (1 <<< lmc : Nat) = 2 ^ lmc := Nat.one_shiftLeft lmc
  rcases hN with hn1 | hnl
  · subst hn1
    simp
  · subst hnl
    rw [hpow, hshift]
    by_cases hl1 : lmc = 0
    · subst hl1
      norm_num
    · have h2le : 2 ≤ 2 ^ lmc := by
        calc 2 = 2 ^ 1 := by norm_num
        _ ≤ 2 ^ lmc := Nat.pow_le_pow_right (by norm_num) (by omega)
      have hrhs : ¬((2 ^ lmc == 1) = true) := by
        simp
        omega
      rw [if_neg hrhs, alignUpSpec_eq hstep]
      by_cases ha : lo % 2 ^ lmc = 0
      · have haligned : (lo &&& lmcMask lmc) = lo :=
          (@land_lmcMask_self_iff lmc lo (by omega) (by omega)).mpr ha
        rw [if_neg (by simp [haligned])]
        rw [if_pos ha]
        omega
      · have hmis : (lo &&& lmcMask lmc) ≠ lo := by
          intro hc
          exact ha ((@land_lmcMask_self_iff lmc lo (by omega) (by omega)).mp hc)
        rw [if_pos (by
          simp only [Bool.and_eq_true, decide_eq_true_eq, bne_iff_ne, ne_eq]
          exact ⟨by omega, hmis⟩)]
        rw [if_neg ha]
        have hbound : lo + 2 ^ lmc < 65536 := by omega
        rw [land_lmcMask_eq (by omega) hbound, Nat.add_mod_right]
        have hm1 := Nat.mod_lt lo hstep
        omega

/-- Claim C5 (confirmed). Under a lid mask control of at most seven, a
request for one lid or for the full two to the lmc block, and free ranges
whose lower bounds lie in the unicast lid space, the free range search of
the code equals its specification: walk the ranges in ascending order,
start at the lower bound for a single lid and otherwise at the smallest
lmc aligned lid at least the lower bound, take the first range where
start plus the request minus one fits below the upper bound, shrink that
range to start plus the request up to the upper bound and remove it when
empty; when no range fits both sides return none, which models the fatal
out of lids error where the code logs ERR 0307 and halts on an
assertion. -/
theorem c5_find_free_range_spec {lmc numLids : Nat} (h7 : lmc ≤ 7)
    (hN : numLids = 1 ∨ numLids = 1 <<< lmc) :
    ∀ ranges : List (Nat × Nat), (∀ r ∈ ranges, r.1 ≤ 49151) →
    find_free_lid_range lmc ranges numLids =
      spec_find_free numLids (2 ^ lmc) ranges := by
  have hn1 : 1 ≤ numLids := by
    rcases hN with h | h
    · omega
    · rw [h, Nat.one_shiftLeft]
      exact Nat.pos_pow_of_pos lmc (by norm_num)
  intro ranges
  induction ranges with
  | nil =>
    intro _
    rfl
  | cons r rest ih =>
    intro hlo
    obtain ⟨lo, hi⟩ := r
    simp only [find_free_lid_range, spec_find_free]
    rw [find_free_head_start h7 hN (hlo (lo, hi) (List.mem_cons_self _ _))]
    set s := (if numLids == 1 then lo else alignUpSpec (2 ^ lmc) lo) with hs
    by_cases hfit : s + numLids - 1 ≤ hi
    · rw [if_pos hfit, if_pos hfit]
      by_cases heq : s + numLids - 1 = hi
      · rw [if_pos (beq_iff_eq.mpr heq), if_neg (by omega)]
      · rw [if_neg (by simp [heq]), if_pos (by omega)]
    · rw [if_neg hfit, if_neg hfit,
        ih (fun r2 h2 => hlo r2 (List.mem_cons_of_mem _ h2))]

/-- Witness for C5: under lmc two a request for four lids skips the too
small range 1 .. 2, aligns the start of 5 .. 20 up to 8, and shrinks that
range to 12 .. 20, on both the code side and the specification side. -/
theorem c5_find_free_range_spec_witness :
    find_free_lid_range 2 [(1, 2), (5, 20)] 4 =
      spec_find_free 4 (2 ^ 2) [(1, 2), (5, 20)] ∧
    find_free_lid_range 2 [(1, 2), (5, 20)] 4 =
      some ((8, 11), [(1, 2), (12, 20)]) :=
  ⟨c5_find_free_range_spec (by decide) (Or.inr (by decide)) [(1, 2), (5, 20)]
     (by decide),
   by decide⟩

end OsmLidMgr
